import Mathlib

/-!
Verification of the signalweave incremental cluster-evolution and
confidence-scoring engine.

Shallow embedding of the Python sources:
  * `src/clustering/cluster_evolution.py` — `compute_centroid`, `evolve_clusters`
  * `src/scoring/critic_agent.py` — `evaluate_cluster`, `_classify_confidence`,
    `_recommend_action`
  * `src/dashboard/search.py` — `normalize_text`, `extract_keywords`,
    `compute_lexical_score`, `search_clusters_hybrid`

Machine floats are modelled by exact rationals (`ℚ`): every constant
appearing in a comparison in the code (0.70, 0.50, 0.40, 0.35, 0.30,
0.15, 0.7, 0.3) is exactly representable in binary-independent decimal
form, and all claim-relevant branch conditions are order comparisons,
so the rational model takes the same branches as the float code away
from rounding noise.  The external sentence-transformer embedding model
is modelled as an abstract function `String → List ℚ` (total where the
code's claims assume success, `Option`-valued where a claim is about
failure handling).
-/

namespace SignalWeave

/-- A signal record (`src/ingestion/signal.py` dict): only the fields the
core reads — `signal_id`, `text` and `source` (absent `source` is modelled
by `none`, matching `s.get("source", "unknown")` in the critic). -/
structure Signal where
  signal_id : String
  text : String
  source : Option String
deriving DecidableEq, Repr, Inhabited

/-- A proto-cluster, as consumed by `evolve_clusters`: the engine reads only
`cluster_id` and `signals`. -/
structure ProtoCluster where
  cluster_id : String
  signals : List Signal
deriving DecidableEq, Repr, Inhabited

/-- A persisted candidate cluster (dict in `cluster_evolution.py`).
`centroid = none` models a dict without the `"centroid"` key.  The
`created_at` timestamp is an opaque string the claims never inspect. -/
structure Candidate where
  cluster_id : String
  signals : List Signal
  embeddings : List (List ℚ)
  centroid : Option (List ℚ)
  signal_count : ℕ
deriving DecidableEq, Repr, Inhabited

/-- The signal ids of a signal list, in order (`[s["signal_id"] for s in ss]`). -/
def signalIds (ss : List Signal) : List String :=
  ss.map Signal.signal_id

/-! ### Similarity primitives (`src/clustering/cluster_evolution.py`) -/

/-- `np.dot(a, b)` for equal-length vectors. -/
def dotQ (a b : List ℚ) : ℚ :=
  (List.zipWith (· * ·) a b).sum

/-- Squared Euclidean norm, `np.linalg.norm(a) ** 2`. -/
def normSq (a : List ℚ) : ℚ :=
  dotQ a a

/-- The branch condition `cosine_similarity(a, b) >= t` of the evolution
loop, embedded exactly.  `cosine_similarity` itself is
`dot(a,b) / (‖a‖ * ‖b‖)`, which involves irrational square roots; for
vectors of nonzero norm the comparison against `t` is equivalent to this
sign-and-square test in exact rational arithmetic (proved in
`sim_ge_eq_cosine_ge` below). -/
def sim_ge (t : ℚ) (a b : List ℚ) : Bool :=
  if 0 ≤ dotQ a b then
    decide (t ≤ 0) || decide (t ^ 2 * (normSq a * normSq b) ≤ dotQ a b ^ 2)
  else
    decide (t ≤ 0) && decide (dotQ a b ^ 2 ≤ t ^ 2 * (normSq a * normSq b))

/-- Mean of column `i` of a list of rows (used by `compute_centroid`). -/
def colMean (rows : List (List ℚ)) (i : ℕ) : ℚ :=
  (rows.map (fun r => r.getD i 0)).sum / (rows.length : ℚ)

/-- `compute_centroid`: `np.mean(np.array(embeddings), axis=0).tolist()`,
the element-wise arithmetic mean, for the nonempty rectangular inputs the
evolution engine feeds it.  The full numpy behaviour on empty or ragged
input is modelled by `compute_centroid_np` below. -/
def compute_centroid (rows : List (List ℚ)) : List ℚ :=
  match rows with
  | [] => []
  | r :: _ => (List.range r.length).map (colMean rows)

/-- Errors a call into numpy can raise.  `invalidInput` is the error class
named by the specification's taxonomy; it appears nowhere in the code. -/
inductive PyErr where
  | valueError
  | invalidInput
deriving DecidableEq, Repr

/-- Result of `np.mean(np.array(rows), axis=0).tolist()`: a NaN float
scalar (for an empty input) or a vector. -/
inductive NpMean where
  | nanScalar
  | vec (v : List ℚ)
deriving DecidableEq, Repr

/-- All rows have the length of the first row (`np.array` accepts the
nested list as a 2-d array exactly in this case). -/
def rowsRectangular (rows : List (List ℚ)) : Bool :=
  match rows with
  | [] => true
  | r :: rest => rest.all (fun x => x.length == r.length)

/-- Full model of the body of `compute_centroid`,
`np.mean(np.array(embeddings), axis=0).tolist()`:
  * empty list — `np.mean` of an empty axis returns NaN (with a
    RuntimeWarning, not an exception), so the call returns a NaN scalar;
  * ragged rows — `np.array` raises `ValueError` (inhomogeneous shape);
  * nonempty rectangular rows — the element-wise mean.
No branch raises anything called `InvalidInput`; no such error class
exists in the repository. -/
def compute_centroid_np (rows : List (List ℚ)) : Except PyErr NpMean :=
  if rows.isEmpty then .ok .nanScalar
  else if rowsRectangular rows then .ok (.vec (compute_centroid rows))
  else .error .valueError

/-! ### Cluster evolution (`evolve_clusters`) -/

/-- The centroid of a proto-cluster as computed at the top of the
per-proto-cluster loop: embed every signal text, then take the mean. -/
def proto_centroid (embed : String → List ℚ) (p : ProtoCluster) : List ℚ :=
  compute_centroid (p.signals.map (fun s => embed s.text))

/-- The merge branch of `evolve_clusters`: keep only incoming signals whose
`signal_id` is not already in the candidate; if any remain, append them and
their embeddings and recompute `centroid` and `signal_count`; if all
incoming signals are duplicates, leave the candidate untouched. -/
def merge_into (embed : String → List ℚ) (p : ProtoCluster) (c : Candidate) : Candidate :=
  let toAdd := p.signals.filter (fun s => decide (s.signal_id ∉ signalIds c.signals))
  if toAdd.isEmpty then c
  else
    let embs := c.embeddings ++ toAdd.map (fun s => embed s.text)
    { c with
      signals := c.signals ++ toAdd
      embeddings := embs
      centroid := some (compute_centroid embs)
      signal_count := (c.signals ++ toAdd).length }

/-- The inner `for candidate in existing_candidates` loop with its `break`:
scan left to right, merge into the first candidate whose centroid passes
the similarity threshold, and return the updated pool; `none` when no
candidate matches. -/
def merge_scan (embed : String → List ℚ) (t : ℚ) (nc : List ℚ) (p : ProtoCluster) :
    List Candidate → Option (List Candidate)
  | [] => none
  | c :: rest =>
    if sim_ge t nc (c.centroid.getD []) then
      some (merge_into embed p c :: rest)
    else
      (merge_scan embed t nc p rest).map (c :: ·)

/-- One iteration of the `for new_cluster in new_batch_clusters` loop:
embed the proto-cluster, scan for a first match, otherwise append a brand
new candidate seeded from the proto-cluster.  (The fresh `uuid.uuid4()` of
the new candidate is modelled by the proto-cluster's own fresh id; no
claim inspects it.) -/
def evolve_step (embed : String → List ℚ) (t : ℚ)
    (pool : List Candidate) (p : ProtoCluster) : List Candidate :=
  let newEmb := p.signals.map (fun s => embed s.text)
  let nc := compute_centroid newEmb
  match merge_scan embed t nc p pool with
  | some pool2 => pool2
  | none =>
    pool ++ [{ cluster_id := p.cluster_id
               signals := p.signals
               embeddings := newEmb
               centroid := some nc
               signal_count := p.signals.length }]

/-- The preparation loop of `evolve_clusters`: candidates stored without a
`"centroid"` key get their embeddings recomputed from their signal texts
and a centroid derived from them; others are untouched. -/
def prepare (embed : String → List ℚ) (c : Candidate) : Candidate :=
  match c.centroid with
  | some _ => c
  | none =>
    let embs := c.signals.map (fun s => embed s.text)
    { c with embeddings := embs, centroid := some (compute_centroid embs) }

/-- `evolve_clusters(existing_candidates, new_batch_clusters,
embedding_model, similarity_threshold)`: prepare centroids, then fold the
per-proto-cluster step over the batch in input order (the Python loop
mutates `existing_candidates` in place, so candidates appended for earlier
proto-clusters are visible to later scans — the fold reproduces this). -/
def evolve_clusters (embed : String → List ℚ) (existing : List Candidate)
    (newBatch : List ProtoCluster) (t : ℚ := 7/10) : List Candidate :=
  newBatch.foldl (evolve_step embed t) (existing.map (prepare embed))

/-! ### Critic (`src/scoring/critic_agent.py`) -/

/-- A cluster dict as read by the critic and by hybrid search.  `none`
models an absent key (`cluster.get(...)` with a default); an absent
`"embeddings"` key and an empty embeddings list are both falsy in Python
and are both modelled by `[]`. -/
structure Cluster where
  signals : List Signal
  signal_count : Option ℕ
  coherence : Option ℚ
  embeddings : List (List ℚ)
  centroid : Option (List ℚ)
deriving DecidableEq, Repr, Inhabited

/-- The `metrics` sub-dict of a critic report. -/
structure CriticMetrics where
  signal_count : ℕ
  source_diversity : ℕ
  coherence : ℚ
deriving DecidableEq, Repr

/-- The dict returned by `evaluate_cluster`. -/
structure CriticReport where
  confidence : String
  flags : List String
  recommended_action : String
  metrics : CriticMetrics
deriving DecidableEq, Repr

/-- `_classify_confidence(signal_count, coherence, source_diversity)`. -/
def _classify_confidence (signal_count : ℕ) (coherence : ℚ) (source_diversity : ℕ) : String :=
  if 10 ≤ signal_count ∧ 1/2 ≤ coherence ∧ 2 ≤ source_diversity then "high"
  else if signal_count < 3 then "low"
  else if coherence < 3/10 then "low"
  else "medium"

/-- `_recommend_action(confidence, signal_count)`. -/
def _recommend_action (confidence : String) (signal_count : ℕ) : String :=
  if confidence = "high" then "promote"
  else if confidence = "medium" then
    if 3 ≤ signal_count then "keep_candidate" else "demote_wait"
  else "demote_wait"

/-- `evaluate_cluster(cluster)`.  The grounding fallback
(`src/scoring/grounding_agent.py`, not present under `src/`) is the
abstract parameter `grounding`; it is consulted exactly when the cached
coherence is 0.0 and the embeddings list is truthy, as in the code. -/
def evaluate_cluster (grounding : Cluster → ℚ) (cluster : Cluster) : CriticReport :=
  let signal_count := cluster.signal_count.getD cluster.signals.length
  let unique_sources := ((cluster.signals.map (fun s => s.source.getD "unknown")).dedup).length
  let coherence0 := cluster.coherence.getD 0
  let coherence :=
    if coherence0 = 0 ∧ cluster.embeddings ≠ [] then grounding cluster else coherence0
  let flags :=
    (if coherence < 3/10 then ["very low coherence"]
     else if coherence < 2/5 then ["weak coherence"]
     else if 7/10 ≤ coherence then ["high coherence"]
     else []) ++
    (if unique_sources = 1 then ["single source"]
     else if 3 ≤ unique_sources then ["multi-source validated"]
     else []) ++
    (if signal_count < 3 then ["insufficient evidence"]
     else if 10 ≤ signal_count then ["strong evidence"]
     else [])
  let confidence := _classify_confidence signal_count coherence unique_sources
  { confidence := confidence
    flags := flags
    recommended_action := _recommend_action confidence signal_count
    metrics :=
      { signal_count := signal_count
        source_diversity := unique_sources
        coherence := coherence } }

/-- Rank of a confidence tier, low < medium < high. -/
def confRank : String → ℕ
  | "medium" => 1
  | "high" => 2
  | _ => 0

/-! ### Hybrid search (`src/dashboard/search.py`) -/

/-- `string.punctuation`, the 32 ASCII punctuation characters replaced by
spaces in `normalize_text`. -/
def PUNCTUATION : List Char :=
  ['!', '\x22', '#', '$', '%', '&', '\x27', '(', ')', '*', '+', ',', '-', '.', '/',
   ':', ';', '<', '=', '>', '?', '@', '[', '\\', ']', '^', '_', '\x60', '\x7b', '|',
   '\x7d', '~']

/-- The module-level `STOPWORDS` set. -/
def STOPWORDS : List String :=
  ["a", "an", "and", "are", "as", "at", "be", "by", "for", "from", "has", "he",
   "in", "is", "it", "its", "of", "on", "that", "the", "to", "was", "will", "with"]

/-- Split a character list into its maximal whitespace-free words,
dropping the whitespace (the accumulator holds the current word in
reverse).  This is what `re.sub(r"\s+", " ", t).strip()` followed by
`.split()` computes for ASCII text. -/
def wordsAux (acc : List Char) : List Char → List (List Char)
  | [] => if acc.isEmpty then [] else [acc.reverse]
  | c :: rest =>
    if c.isWhitespace then
      if acc.isEmpty then wordsAux [] rest else acc.reverse :: wordsAux [] rest
    else wordsAux (c :: acc) rest

/-- The whitespace-separated words of `normalize_text text`: each
character is lowercased (`text.lower()`), punctuation is replaced by a
space (`str.maketrans(string.punctuation, " " * ...)`), and the result is
split on whitespace runs. -/
def normalize_words (text : String) : List String :=
  let replaced :=
    (text.data.map Char.toLower).map
      (fun ch => if PUNCTUATION.contains ch then ' ' else ch)
  (wordsAux [] replaced).map List.asString

/-- `normalize_text(text)`: the normalized words joined by single spaces
(whitespace runs collapsed, ends stripped). -/
def normalize_text (text : String) : String :=
  String.intercalate " " (normalize_words text)

/-- `extract_keywords(text)`: tokens of the normalized text (splitting
`normalize_text` on single spaces returns exactly `normalize_words`) of
length ≥ 3 that are not stopwords.  The Python set is modelled by a
deduplicated list (only membership and cardinality are ever used). -/
def extract_keywords (text : String) : List String :=
  ((normalize_words text).filter
    (fun tok => 3 ≤ tok.length && !STOPWORDS.contains tok)).dedup

/-- The `cluster_keywords` accumulation loop of `compute_lexical_score`:
the union of the keywords of every member signal's text. -/
def cluster_keywords (signals : List Signal) : List String :=
  ((signals.map (fun s => extract_keywords s.text)).flatten).dedup

/-- `compute_lexical_score(query_keywords, cluster_signals)`: the fraction
of query keywords that occur among the keywords of the cluster's signal
texts (0.0 for an empty keyword set). -/
def compute_lexical_score (qk : List String) (signals : List Signal) : ℚ :=
  if qk.isEmpty then 0
  else
    ((qk.filter (fun w => (cluster_keywords signals).contains w)).length : ℚ) /
      (qk.length : ℚ)

/-- A search hit: the original cluster plus the four metadata fields
`search_clusters_hybrid` attaches to it. -/
structure SearchResult where
  cluster : Cluster
  semantic_score : ℚ
  lexical_score : ℚ
  final_score : ℚ
  cluster_type : String
deriving DecidableEq, Repr

/-- Build the result dict for one kept cluster. -/
def mk_result (c : Cluster) (s l f : ℚ) : SearchResult :=
  { cluster := c
    semantic_score := s
    lexical_score := l
    final_score := f
    cluster_type := if 3 ≤ c.signal_count.getD 0 then "Active" else "Candidate" }

/-- The sort order of the final `results.sort(key=..., reverse=True)`:
descending by `final_score`, then descending by `signal_count`.  A stable
merge sort under this relation reproduces Python's stable sort. -/
def search_sort_le (a b : SearchResult) : Bool :=
  decide (b.final_score < a.final_score) ||
    (decide (b.final_score = a.final_score) &&
      decide (b.cluster.signal_count.getD 0 ≤ a.cluster.signal_count.getD 0))

/-- The per-cluster body of the search loop: skip a cluster with no
centroid; otherwise score it and keep it iff
`(semantic >= 0.40 or lexical >= 0.15) and final >= min_final_score`. -/
def score_cluster (cos : List ℚ → List ℚ → ℚ) (qk : List String) (qe : List ℚ)
    (min_final_score : ℚ) (c : Cluster) : Option SearchResult :=
  match c.centroid with
  | none => none
  | some cen =>
    let s := cos qe cen
    let l := compute_lexical_score qk c.signals
    let f := 7/10 * s + 3/10 * l
    if (2/5 ≤ s ∨ 3/20 ≤ l) ∧ min_final_score ≤ f then
      some (mk_result c s l f)
    else none

/-- The guard `if not query.strip(): return []` — a string is blank when
it consists of whitespace only. -/
def is_blank (s : String) : Bool :=
  s.data.all Char.isWhitespace

/-- `search_clusters_hybrid(query, clusters, embedding_model,
min_final_score)`.  The cosine of the (float) query embedding against a
centroid is the abstract parameter `cos`; the embedding call is
`embed : String → Option (List ℚ)`, `none` modelling an exception from
the provider, which the code catches and converts to an empty result. -/
def search_clusters_hybrid (cos : List ℚ → List ℚ → ℚ) (embed : String → Option (List ℚ))
    (query : String) (clusters : List Cluster) (min_final_score : ℚ := 7/20) :
    List SearchResult :=
  if is_blank query then []
  else
    let qk := extract_keywords query
    match embed query with
    | none => []
    | some qe =>
      (clusters.filterMap (score_cluster cos qk qe min_final_score)).mergeSort
        search_sort_le

/-! ### Concrete instances used by witnesses -/

/-- A five-keyword query ("alpha bravo charlie delta echo"). -/
def queryW : String := "alpha bravo charlie delta echo"

/-- A concrete query embedding. -/
def qeW : List ℚ := [1, 0]

/-- An embedding provider that always succeeds with `qeW`. -/
def embW : String → Option (List ℚ) := fun _ => some qeW

/-- A cosine model: similarity 0.40 against centroid `[1]`, 0.50
otherwise. -/
def cosW : List ℚ → List ℚ → ℚ := fun _ cen => if cen = [1] then 2/5 else 1/2

/-- A signal sharing no keyword with `queryW`. -/
def sigAW : Signal := { signal_id := "a1", text := "zulu zulu", source := some "feedA" }

/-- A signal sharing exactly the keyword "alpha" with `queryW`. -/
def sigBW : Signal := { signal_id := "b1", text := "Alpha systems!", source := some "feedB" }

/-- Boundary cluster: semantic 0.40, lexical 0.0, final 0.28. -/
def clusterAW : Cluster :=
  { signals := [sigAW], signal_count := some 4, coherence := none,
    embeddings := [], centroid := some [1] }

/-- Boundary cluster: semantic 0.50, lexical 0.20, final 0.41. -/
def clusterBW : Cluster :=
  { signals := [sigBW], signal_count := some 4, coherence := none,
    embeddings := [], centroid := some [2] }

/-- An embedding model mapping every text to the 1-dimensional vector `[1]`. -/
def embedW : String → List ℚ := fun _ => [1]

/-- A candidate whose centroid `[-1]` does not match `[1]` at threshold 0.7. -/
def candA : Candidate :=
  { cluster_id := "cA", signals := [{ signal_id := "x1", text := "t1", source := none }],
    embeddings := [[-1]], centroid := some [-1], signal_count := 1 }

/-- A candidate whose centroid `[1]` matches `[1]` at threshold 0.7. -/
def candB : Candidate :=
  { cluster_id := "cB", signals := [{ signal_id := "x2", text := "t2", source := none }],
    embeddings := [[1]], centroid := some [1], signal_count := 1 }

/-- A second matching candidate, later in the pool than `candB`. -/
def candC : Candidate :=
  { cluster_id := "cC", signals := [{ signal_id := "x3", text := "t3", source := none }],
    embeddings := [[1]], centroid := some [1], signal_count := 1 }

/-- A proto-cluster with one fresh signal. -/
def protoW : ProtoCluster :=
  { cluster_id := "p1", signals := [{ signal_id := "n1", text := "news", source := none }] }

/-- A candidate satisfying the centroid-mean invariant (`mean [[1],[3]] = [2]`). -/
def candInv : Candidate :=
  { cluster_id := "cI", signals := [{ signal_id := "y1", text := "ty", source := none }],
    embeddings := [[1], [3]], centroid := some [2], signal_count := 1 }

/-- A candidate holding the two distinct signal ids "a" and "b". -/
def candD : Candidate :=
  { cluster_id := "cD",
    signals := [{ signal_id := "a", text := "ta", source := none },
                { signal_id := "b", text := "tb", source := none }],
    embeddings := [[1], [1]], centroid := some [1], signal_count := 2 }

/-- A proto-cluster sharing signal id "a" with `candD` and adding "z". -/
def protoShared : ProtoCluster :=
  { cluster_id := "p2",
    signals := [{ signal_id := "a", text := "ta", source := none },
                { signal_id := "z", text := "tz", source := none }] }

/-- A proto-cluster all of whose signal ids already occur in `candB`. -/
def protoDup : ProtoCluster :=
  { cluster_id := "p3", signals := [{ signal_id := "x2", text := "dup", source := none }] }

/-! ## Theorems -/

/-- For vectors whose Euclidean norms happen to be rational (`na`, `nb`
with `na² = ‖a‖²`, `nb² = ‖b‖²`), the exact branch test `sim_ge t a b`
agrees with the code's `cosine_similarity(a, b) >= t`, i.e. with
`t * (‖a‖ * ‖b‖) ≤ dot a b`. -/
theorem sim_ge_eq_cosine_ge (t na nb : ℚ) (a b : List ℚ)
    (ha : 0 < na) (hb : 0 < nb) (hna : na ^ 2 = normSq a) (hnb : nb ^ 2 = normSq b) :
    (sim_ge t a b = true ↔ t * (na * nb) ≤ dotQ a b) := by
  have hnanb : 0 < na * nb := mul_pos ha hb
  unfold sim_ge
  rw [← hna, ← hnb]
  split
  · rename_i hd
    simp only [Bool.or_eq_true, decide_eq_true_eq]
    constructor
    · rintro (ht | hsq)
      · nlinarith
      · rcases le_or_lt t 0 with ht | ht
        · nlinarith
        · by_contra hcon
          push_neg at hcon
          have h1 : 0 < t * (na * nb) - dotQ a b := by linarith
          have h2 : 0 < t * (na * nb) + dotQ a b := by positivity
          nlinarith [mul_pos h1 h2]
    · intro h
      rcases le_or_lt t 0 with ht | ht
      · exact Or.inl ht
      · right
        have h0 : 0 ≤ t * (na * nb) := by positivity
        have hsq := pow_le_pow_left₀ h0 h 2
        nlinarith [hsq]
  · rename_i hd
    push_neg at hd
    simp only [Bool.and_eq_true, decide_eq_true_eq]
    have htn : t ≤ 0 → t * (na * nb) ≤ 0 :=
      fun hs => mul_nonpos_of_nonpos_of_nonneg hs hnanb.le
    constructor
    · rintro ⟨ht, hsq⟩
      by_contra hcon
      push_neg at hcon
      have h1 : 0 < t * (na * nb) - dotQ a b := by linarith
      have h2 : 0 < -(dotQ a b + t * (na * nb)) := by
        have := htn ht; linarith
      nlinarith [mul_pos h1 h2]
    · intro h
      have ht : t ≤ 0 := by
        by_contra hx
        push_neg at hx
        have hpos : 0 < t * (na * nb) := by positivity
        linarith
      refine ⟨ht, ?_⟩
      have h1 : (0:ℚ) ≤ -dotQ a b := by linarith
      have h2 : -dotQ a b ≤ -(t * (na * nb)) := by linarith
      have hsq := pow_le_pow_left₀ h1 h2 2
      nlinarith [hsq]

/-- Claim C1: `_classify_confidence` follows the spec's precedence —
confidence is "high" iff `signal_count ≥ 10 ∧ coherence ≥ 0.50 ∧
source_diversity ≥ 2`; otherwise it is "low" iff `signal_count < 3 ∨
coherence < 0.30`; otherwise it is "medium". -/
theorem classify_confidence_precedence (sc : ℕ) (coh : ℚ) (sd : ℕ) :
    (_classify_confidence sc coh sd = "high" ↔
       (10 ≤ sc ∧ 1/2 ≤ coh ∧ 2 ≤ sd)) ∧
    (_classify_confidence sc coh sd = "low" ↔
       (¬(10 ≤ sc ∧ 1/2 ≤ coh ∧ 2 ≤ sd) ∧ (sc < 3 ∨ coh < 3/10))) ∧
    (_classify_confidence sc coh sd = "medium" ↔
       (¬(10 ≤ sc ∧ 1/2 ≤ coh ∧ 2 ≤ sd) ∧ ¬(sc < 3 ∨ coh < 3/10))) := by
  unfold _classify_confidence
  split_ifs with h1 h2 h3 <;>
    refine ⟨?_, ?_, ?_⟩ <;> simp_all

/-- Rank computation for the three tiers. -/
theorem confRank_vals : confRank "low" = 0 ∧ confRank "medium" = 1 ∧ confRank "high" = 2 :=
  ⟨rfl, rfl, rfl⟩

/-- Claim C6: increasing `signal_count` alone, or `coherence` alone, never
strictly lowers the confidence tier (ordering low < medium < high). -/
theorem classify_confidence_monotone (sc sc' : ℕ) (coh coh' : ℚ) (sd : ℕ) :
    (sc ≤ sc' →
       confRank (_classify_confidence sc coh sd) ≤
         confRank (_classify_confidence sc' coh sd)) ∧
    (coh ≤ coh' →
       confRank (_classify_confidence sc coh sd) ≤
         confRank (_classify_confidence sc coh' sd)) := by
  have key : ∀ (x x' : ℕ) (y y' : ℚ), x ≤ x' → y ≤ y' →
      confRank (_classify_confidence x y sd) ≤ confRank (_classify_confidence x' y' sd) := by
    intro x x' y y' hx hy
    unfold _classify_confidence
    by_cases hH : 10 ≤ x ∧ 1/2 ≤ y ∧ 2 ≤ sd
    · have hH' : 10 ≤ x' ∧ 1/2 ≤ y' ∧ 2 ≤ sd := ⟨by omega, by linarith [hH.2.1], hH.2.2⟩
      rw [if_pos hH, if_pos hH']
    · rw [if_neg hH]
      by_cases hx3 : x < 3
      · split_ifs <;> simp [confRank]
      · rw [if_neg hx3]
        by_cases hy3 : y < 3/10
        · split_ifs <;> simp [confRank]
        · have hx3' : ¬ x' < 3 := by omega
          have hy3' : ¬ y' < 3/10 := by intro hc; exact hy3 (by linarith)
          rw [if_neg hy3]
          split_ifs <;> simp [confRank]
  exact ⟨fun hsc => key sc sc' coh coh hsc le_rfl,
         fun hcoh => key sc sc coh coh' le_rfl hcoh⟩

/-- Witness for C6 at concrete inputs. -/
theorem classify_confidence_monotone_witness :
    confRank (_classify_confidence 3 (1/2) 1) ≤ confRank (_classify_confidence 10 (1/2) 1) ∧
    confRank (_classify_confidence 5 (3/10) 2) ≤ confRank (_classify_confidence 5 (1/2) 2) :=
  ⟨(classify_confidence_monotone 3 10 (1/2) (1/2) 1).1 (by norm_num),
   (classify_confidence_monotone 5 5 (3/10) (1/2) 2).2 (by norm_num)⟩

/-- At coherence 0 the classifier answers "low" whatever the other
metrics are. -/
theorem classify_confidence_zero (sc sd : ℕ) : _classify_confidence sc 0 sd = "low" := by
  unfold _classify_confidence
  split_ifs with h1 h2 h3
  · exact absurd h1.2.1 (by norm_num)
  · rfl
  · rfl
  · exact absurd h3 (by norm_num)

/-- Claim C10: a cluster with no (or zero) cached coherence and no
non-empty embeddings list is treated as coherence 0.0 by the critic —
the report's metric is 0, "very low coherence" is flagged, confidence is
"low" and the recommended action is "demote_wait", for every grounding
collaborator and whatever the signal count and source diversity. -/
theorem evaluate_cluster_zero_coherence (g : Cluster → ℚ) (c : Cluster)
    (hcoh : c.coherence = none ∨ c.coherence = some 0)
    (hemb : c.embeddings = []) :
    (evaluate_cluster g c).metrics.coherence = 0 ∧
    "very low coherence" ∈ (evaluate_cluster g c).flags ∧
    (evaluate_cluster g c).confidence = "low" ∧
    (evaluate_cluster g c).recommended_action = "demote_wait" := by
  have h0 : c.coherence.getD 0 = 0 := by rcases hcoh with h | h <;> simp [h]
  unfold evaluate_cluster
  rw [h0, hemb]
  simp only [ne_eq, not_true_eq_false, and_false, if_false, classify_confidence_zero]
  refine ⟨trivial, ?_, trivial, ?_⟩
  · have hflag : ((0:ℚ) < 3/10) := by norm_num
    rw [if_pos hflag]
    simp
  · unfold _recommend_action
    rfl

/-- Witness for C10 at a concrete cluster with 5 signals recorded and a
single source. -/
theorem evaluate_cluster_zero_coherence_witness :
    (clusterAW.coherence = none ∨ clusterAW.coherence = some 0) ∧
    (evaluate_cluster (fun _ => 0) clusterAW).confidence = "low" ∧
    (evaluate_cluster (fun _ => 0) clusterAW).recommended_action = "demote_wait" :=
  ⟨Or.inl rfl,
   (evaluate_cluster_zero_coherence (fun _ => 0) clusterAW (Or.inl rfl) rfl).2.2.1,
   (evaluate_cluster_zero_coherence (fun _ => 0) clusterAW (Or.inl rfl) rfl).2.2.2⟩

/-- Claim C8 counterexample: called on an empty list, `compute_centroid`
returns a value (numpy's NaN mean of an empty axis) instead of failing,
and in particular does not fail with an `InvalidInput` error. -/
theorem compute_centroid_empty_no_invalid_input :
    compute_centroid_np [] = Except.ok NpMean.nanScalar ∧
    compute_centroid_np [] ≠ Except.error PyErr.invalidInput :=
  ⟨rfl, by simp [compute_centroid_np]⟩

/-- Claim C8 (amended): `compute_centroid` never raises `InvalidInput`
(no such error exists in the code).  On an empty list it returns numpy's
NaN scalar; on mismatched dimensions numpy's array construction raises
`ValueError`; on nonempty rectangular input it returns the element-wise
mean. -/
theorem compute_centroid_np_spec :
    compute_centroid_np [] = Except.ok NpMean.nanScalar ∧
    (∀ rows : List (List ℚ), rows ≠ [] → rowsRectangular rows = false →
        compute_centroid_np rows = Except.error PyErr.valueError) ∧
    (∀ rows : List (List ℚ), rows ≠ [] → rowsRectangular rows = true →
        compute_centroid_np rows = Except.ok (NpMean.vec (compute_centroid rows))) := by
  refine ⟨rfl, ?_, ?_⟩ <;> intro rows hne hr <;> unfold compute_centroid_np <;>
    simp [hne, hr]

/-- Witness for the amended C8 at a ragged and at a rectangular input. -/
theorem compute_centroid_np_spec_witness :
    compute_centroid_np [[1], [2, 3]] = Except.error PyErr.valueError ∧
    compute_centroid_np [[1, 3], [3, 5]] =
      Except.ok (NpMean.vec (compute_centroid [[1, 3], [3, 5]])) :=
  ⟨compute_centroid_np_spec.2.1 _ (by simp) rfl,
   compute_centroid_np_spec.2.2 _ (by simp) rfl⟩

/-- Claim C7: hybrid search returns an empty list (and in this total
model, in particular does not raise) both for a blank query and whenever
the query embedding call fails. -/
theorem search_hybrid_soft_fail (cos : List ℚ → List ℚ → ℚ)
    (embed : String → Option (List ℚ)) (query : String)
    (clusters : List Cluster) (minF : ℚ) :
    (is_blank query = true → search_clusters_hybrid cos embed query clusters minF = []) ∧
    (embed query = none → search_clusters_hybrid cos embed query clusters minF = []) := by
  unfold search_clusters_hybrid
  constructor
  · intro h
    rw [h]
    rfl
  · intro h
    rw [h]
    split <;> rfl

/-- Witness for C7: a whitespace-only query, and a failing embedding
provider on a real query. -/
theorem search_hybrid_soft_fail_witness :
    search_clusters_hybrid cosW embW " \t " [clusterAW] (7/20) = [] ∧
    search_clusters_hybrid cosW (fun _ => none) queryW [clusterAW] (7/20) = [] :=
  ⟨(search_hybrid_soft_fail cosW embW " \t " [clusterAW] (7/20)).1 (by decide),
   (search_hybrid_soft_fail cosW (fun _ => none) queryW [clusterAW] (7/20)).2 rfl⟩

/-- The per-cluster search body succeeds exactly on clusters that have a
centroid and pass the keep-filter, and then returns the scored record. -/
theorem score_cluster_eq_some (cos : List ℚ → List ℚ → ℚ) (qk : List String)
    (qe : List ℚ) (minF : ℚ) (c : Cluster) (r : SearchResult) :
    score_cluster cos qk qe minF c = some r ↔
      ∃ cen, c.centroid = some cen ∧
        ((2/5 ≤ cos qe cen ∨ 3/20 ≤ compute_lexical_score qk c.signals) ∧
           minF ≤ 7/10 * cos qe cen + 3/10 * compute_lexical_score qk c.signals) ∧
        r = mk_result c (cos qe cen) (compute_lexical_score qk c.signals)
              (7/10 * cos qe cen + 3/10 * compute_lexical_score qk c.signals) := by
  unfold score_cluster
  cases hc : c.centroid with
  | none => simp
  | some cen =>
    dsimp only
    split_ifs with h
    · constructor
      · intro hr
        exact ⟨cen, rfl, h, (Option.some.inj hr).symm⟩
      · rintro ⟨cen2, hcen2, h2, hr⟩
        cases hcen2
        exact congrArg some hr.symm
    · constructor
      · intro hr
        cases hr
      · rintro ⟨cen2, hcen2, h2, hr⟩
        cases hcen2
        exact absurd h2 h

/-- `queryW` shares no keyword with `sigAW`. -/
theorem lexA_eval : compute_lexical_score (extract_keywords queryW) [sigAW] = 0 := by
  unfold compute_lexical_score
  rw [if_neg (by decide)]
  rw [show (extract_keywords queryW).filter
        (fun w => (cluster_keywords [sigAW]).contains w) = [] from by decide]
  simp

/-- `queryW` shares exactly the keyword "alpha" with `sigBW`, one of its
five keywords. -/
theorem lexB_eval : compute_lexical_score (extract_keywords queryW) [sigBW] = 1/5 := by
  unfold compute_lexical_score
  rw [if_neg (by decide)]
  rw [show (extract_keywords queryW).filter
        (fun w => (cluster_keywords [sigBW]).contains w) = ["alpha"] from by decide]
  rw [show (extract_keywords queryW).length = 5 from by decide]
  norm_num

/-- The modelled cosine gives 0.40 against `clusterAW`'s centroid. -/
theorem cosA_eval : cosW qeW [1] = 2/5 := by
  unfold cosW
  rw [if_pos rfl]

/-- The modelled cosine gives 0.50 against `clusterBW`'s centroid. -/
theorem cosB_eval : cosW qeW [2] = 1/2 := by
  unfold cosW
  rw [if_neg (by intro h; injection h with h1 _; exact absurd h1 (by norm_num))]

/-- Claim C5: hybrid search scores every centroid-bearing cluster with
`finalScore = 0.7*semantic + 0.3*lexical` and keeps it iff
`(semantic ≥ 0.40 ∨ lexical ≥ 0.15) ∧ finalScore ≥ minFinalScore`; in
particular at `minFinalScore = 0.35` the boundary cluster with semantic
0.40 and lexical 0.0 (final 0.28) is excluded while the cluster with
semantic 0.50 and lexical 0.20 (final 0.41) is included. -/
theorem search_hybrid_scoring :
    (∀ (cos : List ℚ → List ℚ → ℚ) (embed : String → Option (List ℚ))
       (query : String) (clusters : List Cluster) (minF : ℚ) (qe : List ℚ),
       is_blank query = false → embed query = some qe →
       ∀ r, r ∈ search_clusters_hybrid cos embed query clusters minF ↔
         ∃ c ∈ clusters, ∃ cen, c.centroid = some cen ∧
           ((2/5 ≤ cos qe cen ∨
               3/20 ≤ compute_lexical_score (extract_keywords query) c.signals) ∧
              minF ≤ 7/10 * cos qe cen +
                3/10 * compute_lexical_score (extract_keywords query) c.signals) ∧
           r = mk_result c (cos qe cen)
                 (compute_lexical_score (extract_keywords query) c.signals)
                 (7/10 * cos qe cen +
                   3/10 * compute_lexical_score (extract_keywords query) c.signals)) ∧
    search_clusters_hybrid cosW embW queryW [clusterAW, clusterBW] (7/20) =
      [mk_result clusterBW (1/2) (1/5) (41/100)] := by
  constructor
  · intro cos embed query clusters minF qe hq he r
    unfold search_clusters_hybrid
    rw [hq, he]
    dsimp only
    simp only [Bool.false_eq_true, if_false, List.mem_mergeSort, List.mem_filterMap,
      score_cluster_eq_some]
  · have hA : score_cluster cosW (extract_keywords queryW) qeW (7/20) clusterAW = none := by
      unfold score_cluster clusterAW
      dsimp only
      rw [if_neg]
      rw [cosA_eval, lexA_eval]
      norm_num
    have hB : score_cluster cosW (extract_keywords queryW) qeW (7/20) clusterBW =
        some (mk_result clusterBW (1/2) (1/5) (41/100)) := by
      unfold score_cluster
      rw [show clusterBW.centroid = some [2] from rfl,
          show clusterBW.signals = [sigBW] from rfl]
      dsimp only
      rw [cosB_eval, lexB_eval, if_pos]
      · norm_num
      · constructor
        · left
          norm_num
        · norm_num
    unfold search_clusters_hybrid
    rw [show is_blank queryW = false from by decide]
    rw [show embW queryW = some qeW from rfl]
    dsimp only
    rw [List.filterMap_cons, List.filterMap_cons, List.filterMap_nil, hA, hB]
    exact List.mergeSort_singleton _

/-- Witness for C5: the inclusion side of the characterization at the
concrete boundary cluster `clusterBW`. -/
theorem search_hybrid_scoring_witness :
    is_blank queryW = false ∧ embW queryW = some qeW ∧
    mk_result clusterBW (1/2) (1/5) (41/100) ∈
      search_clusters_hybrid cosW embW queryW [clusterAW, clusterBW] (7/20) := by
  have h := search_hybrid_scoring.1 cosW embW queryW [clusterAW, clusterBW] (7/20) qeW
    (by decide) rfl (mk_result clusterBW (1/2) (1/5) (41/100))
  refine ⟨by decide, rfl, h.mpr ?_⟩
  refine ⟨clusterBW, by simp, [2], rfl, ?_, ?_⟩
  · rw [show clusterBW.signals = [sigBW] from rfl, cosB_eval, lexB_eval]
    constructor
    · left
      norm_num
    · norm_num
  · rw [show clusterBW.signals = [sigBW] from rfl, cosB_eval, lexB_eval]
    norm_num

/-- Writing back the element already at an index leaves the list unchanged. -/
theorem set_get_self : ∀ (l : List Candidate) (i : ℕ) (h : i < l.length),
    l.set i (l.get ⟨i, h⟩) = l := by
  intro l
  induction l with
  | nil => intro i h; exact absurd h (by simp)
  | cons c rest ih =>
    intro i h
    cases i with
    | zero => rfl
    | succ i2 =>
      have := ih i2 (Nat.lt_of_succ_lt_succ h)
      simp only [List.set_cons_succ, List.get_cons_succ, this]

/-- A candidate that already has a centroid is untouched by the preparation loop. -/
theorem prepare_of_some (embed : String → List ℚ) (c : Candidate)
    (h : c.centroid ≠ none) : prepare embed c = c := by
  unfold prepare
  cases hc : c.centroid with
  | none => exact absurd hc h
  | some cen => rfl

/-- Preparation is the identity on a pool whose candidates all carry centroids. -/
theorem map_prepare_id (embed : String → List ℚ) (pool : List Candidate)
    (h : ∀ c ∈ pool, c.centroid ≠ none) : pool.map (prepare embed) = pool := by
  induction pool with
  | nil => rfl
  | cons c rest ih =>
    rw [List.map_cons, prepare_of_some embed c (h c (by simp)),
        ih (fun d hd => h d (by simp [hd]))]

/-- Preparation never touches the signal list. -/
theorem prepare_signals (embed : String → List ℚ) (c : Candidate) :
    (prepare embed c).signals = c.signals := by
  unfold prepare
  cases c.centroid <;> rfl

/-- If some index passes the similarity test, the scan stops at the least such
index `k` and replaces exactly the candidate there by its merge. -/
theorem merge_scan_first (embed : String → List ℚ) (t : ℚ) (nc : List ℚ) (p : ProtoCluster) :
    ∀ (l : List Candidate) (i : ℕ) (hi : i < l.length),
      sim_ge t nc ((l.get ⟨i, hi⟩).centroid.getD []) = true →
      ∃ (k : ℕ) (hk : k < l.length), k ≤ i ∧
        sim_ge t nc ((l.get ⟨k, hk⟩).centroid.getD []) = true ∧
        (∀ (m : ℕ) (hm : m < l.length), m < k →
          sim_ge t nc ((l.get ⟨m, hm⟩).centroid.getD []) = false) ∧
        merge_scan embed t nc p l = some (l.set k (merge_into embed p (l.get ⟨k, hk⟩))) := by
  intro l
  induction l with
  | nil => intro i hi; exact absurd hi (by simp)
  | cons c rest ih =>
    intro i hi hpred
    by_cases hc : sim_ge t nc (c.centroid.getD []) = true
    · refine ⟨0, by simp, Nat.zero_le i, hc, ?_, ?_⟩
      · intro m hm hmk
        exact absurd hmk (by omega)
      · simp [merge_scan, hc]
    · have hi0 : i ≠ 0 := by
        intro h
        subst h
        exact hc hpred
      obtain ⟨i2, rfl⟩ := Nat.exists_eq_succ_of_ne_zero hi0
      have hi2 : i2 < rest.length := Nat.lt_of_succ_lt_succ hi
      obtain ⟨k, hk, hki, hkp, hmin, heq⟩ := ih i2 hi2 hpred
      refine ⟨k + 1, Nat.succ_lt_succ hk, Nat.succ_le_succ hki, hkp, ?_, ?_⟩
      · intro m hm hmk
        cases m with
        | zero => simpa using hc
        | succ m2 => exact hmin m2 (Nat.lt_of_succ_lt_succ hm) (Nat.lt_of_succ_lt_succ hmk)
      · simp [merge_scan, hc, heq]

/-- A successful scan only ever replaces a single candidate in place. -/
theorem merge_scan_some (embed : String → List ℚ) (t : ℚ) (nc : List ℚ) (p : ProtoCluster) :
    ∀ (l l2 : List Candidate), merge_scan embed t nc p l = some l2 →
      ∃ (k : ℕ) (hk : k < l.length),
        l2 = l.set k (merge_into embed p (l.get ⟨k, hk⟩)) := by
  intro l
  induction l with
  | nil => intro l2 h; cases h
  | cons c rest ih =>
    intro l2 h
    rw [merge_scan] at h
    by_cases hc : sim_ge t nc (c.centroid.getD []) = true
    · rw [if_pos hc] at h
      exact ⟨0, by simp, (Option.some.inj h).symm⟩
    · rw [if_neg hc, Option.map_eq_some'] at h
      obtain ⟨rest2, hrest2, rfl⟩ := h
      obtain ⟨k, hk, rfl⟩ := ih rest2 hrest2
      exact ⟨k + 1, Nat.succ_lt_succ hk, rfl⟩

/-- Merging preserves the centroid-is-mean-of-embeddings invariant. -/
theorem merge_into_centroid (embed : String → List ℚ) (p : ProtoCluster) (c : Candidate)
    (h : c.centroid = some (compute_centroid c.embeddings)) :
    (merge_into embed p c).centroid =
      some (compute_centroid (merge_into embed p c).embeddings) := by
  unfold merge_into
  dsimp only
  split_ifs with ht
  · exact h
  · rfl

/-- One evolution step preserves the centroid invariant across the pool. -/
theorem evolve_step_centroid (embed : String → List ℚ) (t : ℚ)
    (pool : List Candidate) (p : ProtoCluster)
    (h : ∀ c ∈ pool, c.centroid = some (compute_centroid c.embeddings)) :
    ∀ c ∈ evolve_step embed t pool p,
      c.centroid = some (compute_centroid c.embeddings) := by
  intro c hc
  unfold evolve_step at hc
  dsimp only at hc
  cases hscan : merge_scan embed t
      (compute_centroid (p.signals.map fun s => embed s.text)) p pool with
  | some pool2 =>
    rw [hscan] at hc
    obtain ⟨k, hk, rfl⟩ := merge_scan_some embed t _ p pool pool2 hscan
    rcases List.mem_or_eq_of_mem_set hc with hmem | rfl
    · exact h c hmem
    · exact merge_into_centroid embed p _ (h _ (List.get_mem pool k hk))
  | none =>
    rw [hscan] at hc
    rcases List.mem_append.mp hc with hmem | hmem
    · exact h c hmem
    · rw [List.mem_singleton] at hmem
      subst hmem
      rfl

/-- Preparation establishes the centroid invariant, given that a cached
centroid (when present) was the mean of the embeddings. -/
theorem prepare_centroid (embed : String → List ℚ) (c : Candidate)
    (h : ∀ cen, c.centroid = some cen → cen = compute_centroid c.embeddings) :
    (prepare embed c).centroid =
      some (compute_centroid (prepare embed c).embeddings) := by
  unfold prepare
  cases hc : c.centroid with
  | none => rfl
  | some cen =>
    dsimp only
    rw [hc, h cen hc]

/-- The batch fold preserves the centroid invariant. -/
theorem evolve_foldl_centroid (embed : String → List ℚ) (t : ℚ) :
    ∀ (protos : List ProtoCluster) (pool : List Candidate),
      (∀ c ∈ pool, c.centroid = some (compute_centroid c.embeddings)) →
      ∀ c ∈ protos.foldl (evolve_step embed t) pool,
        c.centroid = some (compute_centroid c.embeddings) := by
  intro protos
  induction protos with
  | nil => intro pool h; simpa using h
  | cons p ps ih =>
    intro pool h
    exact ih _ (evolve_step_centroid embed t pool p h)

/-- `signalIds` distributes over append. -/
theorem signalIds_append (a b : List Signal) :
    signalIds (a ++ b) = signalIds a ++ signalIds b :=
  List.map_append Signal.signal_id a b

/-- Merging never changes the multiplicity of a signal id already present
in the candidate: only ids absent from the candidate are appended. -/
theorem merge_into_count (embed : String → List ℚ) (p : ProtoCluster) (c : Candidate)
    (sid : String) (hmem : sid ∈ signalIds c.signals) :
    (signalIds (merge_into embed p c).signals).count sid =
      (signalIds c.signals).count sid := by
  unfold merge_into
  dsimp only
  split_ifs with ht
  · rfl
  · show (signalIds (c.signals ++ _)).count sid = _
    rw [signalIds_append, List.count_append]
    have hz : (signalIds (p.signals.filter
        (fun s => decide (s.signal_id ∉ signalIds c.signals)))).count sid = 0 := by
      rw [List.count_eq_zero]
      intro hmem2
      rw [signalIds, List.mem_map] at hmem2
      obtain ⟨s, hs, hsid⟩ := hmem2
      rw [List.mem_filter] at hs
      exact (of_decide_eq_true hs.2) (hsid ▸ hmem)
    rw [hz, Nat.add_zero]

/-- One evolution step keeps a uniquely-held signal id unique in the
candidate at any fixed index. -/
theorem evolve_step_count (embed : String → List ℚ) (t : ℚ)
    (pool : List Candidate) (p : ProtoCluster) (i : ℕ) (sid : String)
    (h : ∃ c, pool[i]? = some c ∧ (signalIds c.signals).count sid = 1) :
    ∃ c, (evolve_step embed t pool p)[i]? = some c ∧
      (signalIds c.signals).count sid = 1 := by
  obtain ⟨c, hc, hcount⟩ := h
  have hi : i < pool.length := by
    by_contra hx
    push_neg at hx
    rw [List.getElem?_eq_none hx] at hc
    cases hc
  unfold evolve_step
  dsimp only
  cases hscan : merge_scan embed t
      (compute_centroid (p.signals.map fun s => embed s.text)) p pool with
  | none =>
    exact ⟨c, by rw [List.getElem?_append_left hi]; exact hc, hcount⟩
  | some pool2 =>
    obtain ⟨k, hk, rfl⟩ := merge_scan_some embed t _ p pool pool2 hscan
    by_cases hik : k = i
    · subst hik
      have hcget : pool.get ⟨k, hk⟩ = c := by
        rw [List.getElem?_eq_getElem hk] at hc
        exact Option.some.inj (by simpa using hc)
      refine ⟨merge_into embed p (pool.get ⟨k, hk⟩), ?_, ?_⟩
      · rw [List.getElem?_set_self hk]
      · have hmem2 : sid ∈ signalIds (pool.get ⟨k, hk⟩).signals := by
          rw [hcget]
          exact List.count_pos_iff.mp (by omega)
        rw [merge_into_count embed p _ sid hmem2, hcget]
        exact hcount
    · exact ⟨c, by rw [List.getElem?_set_ne hik]; exact hc, hcount⟩

/-- The batch fold keeps a uniquely-held signal id unique. -/
theorem evolve_foldl_count (embed : String → List ℚ) (t : ℚ) (i : ℕ) (sid : String) :
    ∀ (protos : List ProtoCluster) (pool : List Candidate),
      (∃ c, pool[i]? = some c ∧ (signalIds c.signals).count sid = 1) →
      ∃ c, (protos.foldl (evolve_step embed t) pool)[i]? = some c ∧
        (signalIds c.signals).count sid = 1 := by
  intro protos
  induction protos with
  | nil => intro pool h; simpa using h
  | cons p ps ih =>
    intro pool h
    exact ih _ (evolve_step_count embed t pool p i sid h)

/-- Claim C3: after an evolution pass every candidate's centroid is exactly
the element-wise arithmetic mean of its embeddings (exactly in `ℚ`, hence
within any floating-point tolerance), provided each input candidate's
cached centroid, when present, was the mean of its embeddings; the merge
and creation branches recompute it whenever the embeddings change. -/
theorem evolve_centroid_mean (embed : String → List ℚ) (t : ℚ)
    (pool : List Candidate) (protos : List ProtoCluster)
    (h : ∀ c ∈ pool, ∀ cen, c.centroid = some cen → cen = compute_centroid c.embeddings) :
    ∀ c ∈ evolve_clusters embed pool protos t,
      c.centroid = some (compute_centroid c.embeddings) := by
  unfold evolve_clusters
  apply evolve_foldl_centroid
  intro c hc
  rw [List.mem_map] at hc
  obtain ⟨c0, hc0, rfl⟩ := hc
  exact prepare_centroid embed c0 (h c0 hc0)

/-- Claim C4: for a candidate whose signals are distinct by `signal_id`
before the pass and a proto-cluster sharing a `signal_id` with it, after
`evolve` the candidate holds that shared id exactly once. -/
theorem evolve_merge_dedup (embed : String → List ℚ) (t : ℚ)
    (pool : List Candidate) (protos : List ProtoCluster) (p : ProtoCluster)
    (i : ℕ) (sid : String) (hi : i < pool.length)
    (hnodup : (signalIds (pool.get ⟨i, hi⟩).signals).Nodup)
    (hp : p ∈ protos) (hshare : sid ∈ signalIds p.signals)
    (hmem : sid ∈ signalIds (pool.get ⟨i, hi⟩).signals) :
    ∃ c, (evolve_clusters embed pool protos t)[i]? = some c ∧
      (signalIds c.signals).count sid = 1 := by
  unfold evolve_clusters
  apply evolve_foldl_count
  refine ⟨prepare embed (pool.get ⟨i, hi⟩), ?_, ?_⟩
  · rw [List.getElem?_map, List.getElem?_eq_getElem hi]
    rfl
  · rw [prepare_signals]
    exact List.count_eq_one_of_mem hnodup hmem

/-- Claim C2: when two candidates at positions `i < j` both pass the
similarity threshold against a proto-cluster's centroid, the pass merges
the proto-cluster into the earliest matching index `k ≤ i` (every index
before `k` fails the test) and replaces only that candidate, scanning no
further: all other candidates are untouched and nothing is appended. -/
theorem evolve_first_match (embed : String → List ℚ) (t : ℚ)
    (pool : List Candidate) (p : ProtoCluster) (i j : ℕ)
    (hcen : ∀ c ∈ pool, c.centroid ≠ none)
    (hij : i < j) (hj : j < pool.length)
    (hip : sim_ge t (proto_centroid embed p)
        ((pool.get ⟨i, Nat.lt_trans hij hj⟩).centroid.getD []) = true)
    (hjp : sim_ge t (proto_centroid embed p)
        ((pool.get ⟨j, hj⟩).centroid.getD []) = true) :
    ∃ (k : ℕ) (hk : k < pool.length), k ≤ i ∧
      sim_ge t (proto_centroid embed p) ((pool.get ⟨k, hk⟩).centroid.getD []) = true ∧
      (∀ (m : ℕ) (hm : m < pool.length), m < k →
        sim_ge t (proto_centroid embed p) ((pool.get ⟨m, hm⟩).centroid.getD []) = false) ∧
      evolve_clusters embed pool [p] t =
        pool.set k (merge_into embed p (pool.get ⟨k, hk⟩)) := by
  obtain ⟨k, hk, hki, hkp, hmin, heq⟩ :=
    merge_scan_first embed t (proto_centroid embed p) p pool i (Nat.lt_trans hij hj) hip
  refine ⟨k, hk, hki, hkp, hmin, ?_⟩
  unfold evolve_clusters
  rw [map_prepare_id embed pool hcen]
  simp only [List.foldl_cons, List.foldl_nil]
  unfold evolve_step
  dsimp only
  rw [show compute_centroid (p.signals.map fun s => embed s.text) =
        proto_centroid embed p from rfl, heq]

/-- Claim C9: a proto-cluster whose signal ids are all already present in
the first matching candidate leaves the pool exactly as it was — the
candidate keeps its signals, embeddings, centroid and signal count, the
proto-cluster still counts as merged, and no new candidate is appended. -/
theorem evolve_duplicate_noop (embed : String → List ℚ) (t : ℚ)
    (pool : List Candidate) (p : ProtoCluster) (k : ℕ)
    (hcen : ∀ c ∈ pool, c.centroid ≠ none)
    (hk : k < pool.length)
    (hkp : sim_ge t (proto_centroid embed p) ((pool.get ⟨k, hk⟩).centroid.getD []) = true)
    (hfirst : ∀ (m : ℕ) (hm : m < pool.length), m < k →
      sim_ge t (proto_centroid embed p) ((pool.get ⟨m, hm⟩).centroid.getD []) = false)
    (hdup : ∀ s ∈ p.signals, s.signal_id ∈ signalIds (pool.get ⟨k, hk⟩).signals) :
    evolve_clusters embed pool [p] t = pool := by
  obtain ⟨k2, hk2, hk2i, hk2p, hmin2, heq⟩ :=
    merge_scan_first embed t (proto_centroid embed p) p pool k hk hkp
  have hkk : k2 = k := by
    rcases Nat.lt_trichotomy k2 k with h | h | h
    · rw [hfirst k2 hk2 h] at hk2p
      cases hk2p
    · exact h
    · exact absurd hk2i (by omega)
  subst hkk
  have hdup2 : ∀ s ∈ p.signals, s.signal_id ∈ signalIds (pool.get ⟨k2, hk2⟩).signals :=
    hdup
  have htoadd : p.signals.filter
      (fun s => decide (s.signal_id ∉ signalIds (pool.get ⟨k2, hk2⟩).signals)) = [] := by
    rw [List.filter_eq_nil_iff]
    intro s hs
    simp only [decide_eq_true_eq, not_not]
    exact hdup2 s hs
  have hnoop : merge_into embed p (pool.get ⟨k2, hk2⟩) = pool.get ⟨k2, hk2⟩ := by
    unfold merge_into
    dsimp only
    rw [htoadd]
    rfl
  unfold evolve_clusters
  rw [map_prepare_id embed pool hcen]
  simp only [List.foldl_cons, List.foldl_nil]
  unfold evolve_step
  dsimp only
  rw [show compute_centroid (p.signals.map fun s => embed s.text) =
        proto_centroid embed p from rfl, heq, hnoop, set_get_self]

/-- Concrete evaluation: `protoW`'s centroid under `embedW`. -/
theorem protoW_centroid : proto_centroid embedW protoW = [1] := by
  norm_num [proto_centroid, protoW, embedW, compute_centroid, colMean,
    List.range_succ]

/-- Concrete evaluation: `protoShared`'s centroid under `embedW`. -/
theorem protoShared_centroid : proto_centroid embedW protoShared = [1] := by
  norm_num [proto_centroid, protoShared, embedW, compute_centroid, colMean,
    List.range_succ]

/-- Identical 1-dimensional vectors pass the 0.7 threshold. -/
theorem sim_one_one : sim_ge (7/10) [1] [1] = true := by
  norm_num [sim_ge, dotQ, normSq]

/-- Opposite 1-dimensional vectors fail the 0.7 threshold. -/
theorem sim_one_negone : sim_ge (7/10) [1] [-1] = false := by
  norm_num [sim_ge, dotQ, normSq]

/-- Witness for C3 at a concrete pool and batch. -/
theorem evolve_centroid_mean_witness :
    (∀ c ∈ [candInv], ∀ cen, c.centroid = some cen → cen = compute_centroid c.embeddings) ∧
    (∀ c ∈ evolve_clusters embedW [candInv] [protoW] (7/10),
       c.centroid = some (compute_centroid c.embeddings)) := by
  have hyp : ∀ c ∈ [candInv], ∀ cen,
      c.centroid = some cen → cen = compute_centroid c.embeddings := by
    intro c hc cen hcen
    rw [List.mem_singleton] at hc
    subst hc
    have h2 : compute_centroid candInv.embeddings = [2] := by
      norm_num [candInv, compute_centroid, colMean, List.range_succ]
    rw [h2]
    rw [show candInv.centroid = some [2] from rfl] at hcen
    exact (Option.some.inj hcen).symm
  exact ⟨hyp, evolve_centroid_mean embedW (7/10) [candInv] [protoW] hyp⟩

/-- Witness for C4: `candD` and `protoShared` share the id "a". -/
theorem evolve_merge_dedup_witness :
    (signalIds ([candD].get ⟨0, by norm_num⟩).signals).Nodup ∧
    protoShared ∈ [protoShared] ∧
    "a" ∈ signalIds protoShared.signals ∧
    "a" ∈ signalIds ([candD].get ⟨0, by norm_num⟩).signals ∧
    (∃ c, (evolve_clusters embedW [candD] [protoShared] (7/10))[0]? = some c ∧
      (signalIds c.signals).count "a" = 1) :=
  ⟨by decide, List.mem_singleton.mpr rfl, by decide, by decide,
   evolve_merge_dedup embedW (7/10) [candD] [protoShared] protoShared 0 "a"
     (by norm_num) (by decide) (List.mem_singleton.mpr rfl) (by decide) (by decide)⟩

/-- Witness for C2: `candB` and `candC` both match; the merge goes to
`candB`, the earlier of the two. -/
theorem evolve_first_match_witness :
    (∀ c ∈ [candA, candB, candC], c.centroid ≠ none) ∧
    sim_ge (7/10) (proto_centroid embedW protoW)
      (([candA, candB, candC].get ⟨1, by norm_num⟩).centroid.getD []) = true ∧
    sim_ge (7/10) (proto_centroid embedW protoW)
      (([candA, candB, candC].get ⟨2, by norm_num⟩).centroid.getD []) = true ∧
    (∃ (k : ℕ) (hk : k < ([candA, candB, candC] : List Candidate).length), k ≤ 1 ∧
      sim_ge (7/10) (proto_centroid embedW protoW)
        (([candA, candB, candC].get ⟨k, hk⟩).centroid.getD []) = true ∧
      (∀ (m : ℕ) (hm : m < ([candA, candB, candC] : List Candidate).length), m < k →
        sim_ge (7/10) (proto_centroid embedW protoW)
          (([candA, candB, candC].get ⟨m, hm⟩).centroid.getD []) = false) ∧
      evolve_clusters embedW [candA, candB, candC] [protoW] (7/10) =
        [candA, candB, candC].set k
          (merge_into embedW protoW ([candA, candB, candC].get ⟨k, hk⟩))) := by
  have hB : sim_ge (7/10) (proto_centroid embedW protoW)
      (([candA, candB, candC].get ⟨1, by norm_num⟩).centroid.getD []) = true := by
    rw [protoW_centroid]
    exact sim_one_one
  have hC : sim_ge (7/10) (proto_centroid embedW protoW)
      (([candA, candB, candC].get ⟨2, by norm_num⟩).centroid.getD []) = true := by
    rw [protoW_centroid]
    exact sim_one_one
  have hcen : ∀ c ∈ [candA, candB, candC], c.centroid ≠ none := by
    intro c hc
    simp only [List.mem_cons, List.not_mem_nil, or_false] at hc
    rcases hc with rfl | rfl | rfl <;> simp [candA, candB, candC]
  exact ⟨hcen, hB, hC,
    evolve_first_match embedW (7/10) [candA, candB, candC] protoW 1 2 hcen
      (by norm_num) (by norm_num) hB hC⟩

/-- Witness for C9: `protoDup` duplicates the only signal of `candB`. -/
theorem evolve_duplicate_noop_witness :
    (∀ c ∈ [candB], c.centroid ≠ none) ∧
    sim_ge (7/10) (proto_centroid embedW protoDup)
      (([candB].get ⟨0, by norm_num⟩).centroid.getD []) = true ∧
    (∀ s ∈ protoDup.signals,
      s.signal_id ∈ signalIds ([candB].get ⟨0, by norm_num⟩).signals) ∧
    evolve_clusters embedW [candB] [protoDup] (7/10) = [candB] := by
  have hpc : proto_centroid embedW protoDup = [1] := by
    norm_num [proto_centroid, protoDup, embedW, compute_centroid, colMean,
      List.range_succ]
  have hkp : sim_ge (7/10) (proto_centroid embedW protoDup)
      (([candB].get ⟨0, by norm_num⟩).centroid.getD []) = true := by
    rw [hpc]
    exact sim_one_one
  have hcen : ∀ c ∈ [candB], c.centroid ≠ none := by
    intro c hc
    rw [List.mem_singleton] at hc
    subst hc
    simp [candB]
  have hdup : ∀ s ∈ protoDup.signals,
      s.signal_id ∈ signalIds ([candB].get ⟨0, by norm_num⟩).signals := by decide
  exact ⟨hcen, hkp, hdup,
    evolve_duplicate_noop embedW (7/10) [candB] protoDup 0 hcen (by norm_num) hkp
      (fun m hm hc => absurd hc (by omega)) hdup⟩
end SignalWeave
